import Mathlib

set_option maxRecDepth 100000

/-!
Verification of the stream-ingestion core: per-stream frame buffers
(`StreamBuffer`), the priority router (`StreamRouter`), the processing
coordinator (`StreamProcessor`) and the ingestion façade
(`StreamIngestionService`), shallowly embedded from the TypeScript source.
JavaScript `Map`s are modelled as association lists that preserve insertion
order (updates replace in place, fresh keys append), matching `Map`
iteration order; `Set`s are duplicate-free lists with the same order.
-/

/-- Lookup in an insertion-ordered association list, mirroring `Map.get`. -/
def lookupM {β : Type} : List (String × β) → String → Option β
  | [], _ => none
  | (k, v) :: rest, key => if k = key then some v else lookupM rest key

/-- Update-or-append, mirroring `Map.set`: an existing key keeps its position,
a fresh key goes to the back (JS `Map` iteration order). -/
def insertM {β : Type} (m : List (String × β)) (key : String) (v : β) :
    List (String × β) :=
  if (lookupM m key).isSome then
    m.map (fun p => if p.1 = key then (key, v) else p)
  else m ++ [(key, v)]

/-- Key removal, mirroring `Map.delete`. -/
def eraseM {β : Type} (m : List (String × β)) (key : String) :
    List (String × β) :=
  m.filter (fun p => !(p.1 == key))

/-- Set insertion, mirroring `Set.add` (no duplicates, insertion order). -/
def insertS (l : List String) (key : String) : List String :=
  if l.contains key then l else l ++ [key]

/-- A video frame (`VideoFrame` in `src/types`): payload bytes, timestamp,
dimensions and a format tag. -/
structure VideoFrame where
  data : List Nat
  timestamp : Nat
  width : Nat
  height : Nat
  format : Nat
deriving DecidableEq, Repr

/-- Signals emitted by `StreamBuffer` (the `emit` calls in the source),
carrying the same payload fields the source attaches. -/
inductive BufEvent where
  | overflow (streamId : String) (removedFrames : Nat) (bufferSize : Nat)
  | highWater (streamId : String) (bufferSize : Nat)
  | lowWater (streamId : String) (bufferSize : Nat)
  | frameAdded (streamId : String) (bufferSize : Nat)
  | frameRetrieved (streamId : String) (bufferSize : Nat)
  | framesRetrieved (streamId : String) (frameCount : Nat) (bufferSize : Nat)
  | bufferCleared (streamId : String) (clearedFrames : Nat)
  | bufferRemoved (streamId : String) (clearedFrames : Nat)
deriving DecidableEq, Repr

/-- State of `StreamBuffer` (src/src/server/StreamBuffer.ts): per-stream frame
lists plus the capacity and watermarks fixed at construction. -/
structure StreamBuffer where
  buffers : List (String × List VideoFrame)
  maxBufferSize : Nat
  lowWaterMark : Nat
  highWaterMark : Nat
deriving DecidableEq, Repr

/-- The `StreamBuffer` constructor. The source computes the watermarks as
`Math.floor(maxBufferSize * 0.3)` and `Math.floor(maxBufferSize * 0.8)` in
floating point; at the default capacity 30 those are exactly 9 and 24, which
the rational forms `n * 3 / 10` and `n * 8 / 10` reproduce. -/
def StreamBuffer.create (maxBufferSize : Nat) : StreamBuffer :=
  { buffers := []
    maxBufferSize := maxBufferSize
    lowWaterMark := maxBufferSize * 3 / 10
    highWaterMark := maxBufferSize * 8 / 10 }

/-- Contents of the backlog of one stream (missing streams read as empty, the
`buffer ? buffer : []` defaulting used throughout the source). -/
def bufferContents (sb : StreamBuffer) (streamId : String) : List VideoFrame :=
  (lookupM sb.buffers streamId).getD []

/-- `StreamBuffer.getBufferSize`. -/
def StreamBuffer.getBufferSize (sb : StreamBuffer) (streamId : String) : Nat :=
  (bufferContents sb streamId).length

/-- `StreamBuffer.isEmpty`. -/
def StreamBuffer.isEmpty (sb : StreamBuffer) (streamId : String) : Bool :=
  sb.getBufferSize streamId == 0

/-- `StreamBuffer.isFull`. -/
def StreamBuffer.isFull (sb : StreamBuffer) (streamId : String) : Bool :=
  sb.maxBufferSize ≤ sb.getBufferSize streamId

/-- `StreamBuffer.handleOverflow`: splice off the oldest
`Math.floor(maxBufferSize * 0.3)` frames and emit `buffer:overflow` with the
count removed and the post-eviction length. -/
def StreamBuffer.handleOverflow (sb : StreamBuffer) (streamId : String)
    (buffer : List VideoFrame) : StreamBuffer × List BufEvent :=
  let framesToRemove := sb.maxBufferSize * 3 / 10
  let removedFrames := buffer.take framesToRemove
  let rest := buffer.drop framesToRemove
  ({ sb with buffers := insertM sb.buffers streamId rest },
   [BufEvent.overflow streamId removedFrames.length rest.length])

/-- `StreamBuffer.addFrame`: at capacity the source calls `handleOverflow`
and returns `false` without appending the incoming frame; below capacity it
appends, emits `buffer:high_water` exactly when the new length equals the
high-water mark, then emits `frame:added` and returns `true`. (The source
first materialises a missing entry as `[]`; folding that into the single
`insertM` below yields the identical map.) -/
def StreamBuffer.addFrame (sb : StreamBuffer) (streamId : String)
    (frame : VideoFrame) : StreamBuffer × Bool × List BufEvent :=
  let buffer := bufferContents sb streamId
  if sb.maxBufferSize ≤ buffer.length then
    let r := sb.handleOverflow streamId buffer
    (r.1, false, r.2)
  else
    let newBuffer := buffer ++ [frame]
    ({ sb with buffers := insertM sb.buffers streamId newBuffer },
     true,
     (if newBuffer.length = sb.highWaterMark then
        [BufEvent.highWater streamId newBuffer.length] else [])
     ++ [BufEvent.frameAdded streamId newBuffer.length])

/-- `StreamBuffer.getNextFrame`: shift the oldest frame, emitting
`buffer:low_water` exactly when the post-removal length equals the low-water
mark, then `frame:retrieved`. -/
def StreamBuffer.getNextFrame (sb : StreamBuffer) (streamId : String) :
    StreamBuffer × Option VideoFrame × List BufEvent :=
  match bufferContents sb streamId with
  | [] => (sb, none, [])
  | frame :: rest =>
    ({ sb with buffers := insertM sb.buffers streamId rest },
     some frame,
     (if rest.length = sb.lowWaterMark then
        [BufEvent.lowWater streamId rest.length] else [])
     ++ [BufEvent.frameRetrieved streamId rest.length])

/-- `StreamBuffer.getFrames`: splice off up to `count` frames from the front
and emit `frames:retrieved`; an empty or unknown stream returns `[]` with no
state change. -/
def StreamBuffer.getFrames (sb : StreamBuffer) (streamId : String)
    (count : Nat) : StreamBuffer × List VideoFrame × List BufEvent :=
  let buffer := bufferContents sb streamId
  if buffer.length = 0 then (sb, [], [])
  else
    let framesToReturn := min count buffer.length
    let frames := buffer.take framesToReturn
    let rest := buffer.drop framesToReturn
    ({ sb with buffers := insertM sb.buffers streamId rest },
     frames,
     [BufEvent.framesRetrieved streamId frames.length rest.length])

/-- `StreamBuffer.removeStream`: delete the whole entry if present and emit
`buffer:removed`; unknown streams are a no-op. -/
def StreamBuffer.removeStream (sb : StreamBuffer) (streamId : String) :
    StreamBuffer × List BufEvent :=
  match lookupM sb.buffers streamId with
  | some buffer =>
      ({ sb with buffers := eraseM sb.buffers streamId },
       [BufEvent.bufferRemoved streamId buffer.length])
  | none => (sb, [])

/-- Push a list of frames one at a time into a single stream, collecting every
emitted buffer event in order. -/
def pushListEv (sb : StreamBuffer) (streamId : String) :
    List VideoFrame → StreamBuffer × List BufEvent
  | [] => (sb, [])
  | f :: rest =>
      let r := sb.addFrame streamId f
      let r2 := pushListEv r.1 streamId rest
      (r2.1, r.2.2 ++ r2.2)

/-- Recognise a `buffer:overflow` signal. -/
def isOverflowEvent : BufEvent → Bool
  | BufEvent.overflow _ _ _ => true
  | _ => false

/-- A frame with a given timestamp, used for concrete scenarios. -/
def mkFrame (i : Nat) : VideoFrame :=
  { data := [], timestamp := i, width := 640, height := 480, format := 0 }

/-- The 35 frames of the example scenario of the spec. -/
def c1Frames : List VideoFrame := (List.range 35).map mkFrame

/-- `Resolution` from `src/types`. -/
structure Resolution where
  width : Int
  height : Int
deriving DecidableEq, Repr

/-- `StreamConfig` from `src/types`; numeric fields are JS numbers used only
in order comparisons, modelled as integers. -/
structure StreamConfig where
  resolution : Resolution
  frameRate : Int
  bitrate : Int
  audioEnabled : Bool
deriving DecidableEq, Repr

/-- `VideoStream` from `src/types`. `config` is optional here because
`validateStream` and the routing rules guard against its runtime absence with
`!stream.config`; the unused `metadata` field is omitted. -/
structure VideoStream where
  streamId : String
  userId : String
  config : Option StreamConfig
  frames : List VideoFrame
deriving DecidableEq, Repr

/-- `ValidationResult` from `src/types`. -/
structure ValidationResult where
  isValid : Bool
  errors : List String
  warnings : List String
deriving DecidableEq, Repr

/-- The blank test the source applies to ids (falsy, or trimming to the
empty string): true exactly when the string has no non-whitespace
character. -/
def isBlank (s : String) : Bool := s.data.all Char.isWhitespace

/-- `StreamIngestionService.validateStream`: structural validation. Error and
warning messages are pushed in source order; `isValid` is
`errors.length === 0`. -/
def validateStream (stream : VideoStream) : ValidationResult :=
  let errors :=
    (if isBlank stream.streamId then ["Stream ID is required"] else [])
    ++ (if isBlank stream.userId then ["User ID is required"] else [])
    ++ (match stream.config with
        | none => ["Stream configuration is required"]
        | some cfg =>
            (if cfg.resolution.width ≤ 0 ∨ cfg.resolution.height ≤ 0 then
              ["Valid resolution is required"] else [])
            ++ (if cfg.frameRate ≤ 0 ∨ 120 < cfg.frameRate then
              ["Frame rate must be between 1 and 120 fps"] else [])
            ++ (if cfg.bitrate ≤ 0 then ["Bitrate must be positive"] else []))
  let warnings :=
    (match stream.config with
     | none => []
     | some cfg =>
        if 1920 < cfg.resolution.width ∨ 1080 < cfg.resolution.height then
          ["High resolution may impact processing performance"] else [])
    ++ (if stream.frames.isEmpty then ["No video frames present in stream"]
        else [])
  { isValid := errors.isEmpty, errors := errors, warnings := warnings }

/-- `ProcessingJob` from `StreamProcessor`. -/
structure ProcessingJob where
  streamId : String
  priority : Int
  queuedAt : Nat
  frameCount : Nat
  retryCount : Nat
deriving DecidableEq, Repr

/-- Per-stream metrics stored by `processStream`. Only the backlog depth is
modelled; the remaining source fields (average latency, frames/second, error
rate, cpu/memory) are wall-clock derived floats outside the model and carry
no weight in any claim. -/
structure ProcessingMetrics where
  queueDepth : Nat
deriving DecidableEq, Repr

/-- Signals emitted by `StreamProcessor`, with the payload fields the claims
refer to. -/
inductive ProcEvent where
  | processingStarted (streamId : String)
  | batchProcessed (streamId : String) (frameCount : Nat)
  | batchError (streamId : String) (frameCount : Nat)
  | processingCompleted (streamId : String) (processedFrames : Nat)
      (errors : Nat)
  | processingRetry (streamId : String) (retryCount : Nat) (delayMs : Nat)
  | processingFailed (streamId : String) (retries : Nat)
deriving DecidableEq, Repr

/-- Combined state of the ingestion service and its three components:
`StreamBuffer`, `StreamRouter` (`processingQueue` as `routerQueue`,
`activeRoutes`) and `StreamProcessor` (`processingQueue` as `procQueue`,
`activeProcessing`, metrics, the running flag and the pending retry timers),
plus the facade maps `userSessions` and `activeStreams` maps. `clock` stands in
for `Date.now()` when a job records `queuedAt`. -/
structure SystemState where
  buffer : StreamBuffer
  routerQueue : List (String × Int)
  activeRoutes : List String
  procQueue : List (String × ProcessingJob)
  activeProcessing : List String
  maxConcurrentStreams : Nat
  processingMetrics : List (String × ProcessingMetrics)
  isProcessing : Bool
  pendingRetries : List (String × ProcessingJob)
  userSessions : List (String × String)
  activeStreams : List (String × VideoStream)
  clock : Nat
deriving DecidableEq, Repr

/-- `StreamProcessor.addStreamToQueue`: an already-queued stream has its
priority raised to the max of old and new; otherwise a fresh job is inserted
with `retryCount = 0` and the current backlog of the stream as `frameCount`. (The
trailing `processNextBatch()` kick is a separate scheduler step.) -/
def SystemState.addStreamToQueue (s : SystemState) (streamId : String)
    (priority : Int) : SystemState :=
  match lookupM s.procQueue streamId with
  | some job =>
      let job2 := { job with priority := max job.priority priority }
      { s with procQueue := insertM s.procQueue streamId job2 }
  | none =>
      let job : ProcessingJob :=
        { streamId := streamId, priority := priority, queuedAt := s.clock,
          frameCount := s.buffer.getBufferSize streamId, retryCount := 0 }
      { s with procQueue := insertM s.procQueue streamId job }

/-- `StreamRouter.routeToAI` together with the processor handler for
`route:added`, which forwards to `addStreamToQueue` with the same
priority. The queue entry of the router itself is overwritten by `Map.set`. -/
def SystemState.routeToAI (s : SystemState) (streamId : String)
    (priority : Int) : SystemState :=
  let s1 := { s with routerQueue := insertM s.routerQueue streamId priority,
                     activeRoutes := insertS s.activeRoutes streamId }
  s1.addStreamToQueue streamId priority

/-- The synchronous processor reactions to buffer signals
(`setupEventHandlers`): `frame:added` queues the stream with default
priority 1 unless it is already queued or active; `buffer:overflow` bumps an
priority of an existing job by 1 capped at 10; other signals leave the state
unchanged. -/
def SystemState.applyBufEvent (s : SystemState) (e : BufEvent) : SystemState :=
  match e with
  | BufEvent.frameAdded streamId _ =>
      if !(lookupM s.procQueue streamId).isSome
          && !(s.activeProcessing.contains streamId) then
        s.addStreamToQueue streamId 1
      else s
  | BufEvent.overflow streamId _ _ =>
      (match lookupM s.procQueue streamId with
       | some job =>
          let job2 := { job with priority := min (job.priority + 1) 10 }
          { s with procQueue := insertM s.procQueue streamId job2 }
       | none => s)
  | _ => s

/-- A frame push at system level: `StreamBuffer.addFrame` followed by the
processor handlers for whatever the buffer emitted. -/
def SystemState.pushFrame (s : SystemState) (streamId : String)
    (frame : VideoFrame) : SystemState :=
  let r := s.buffer.addFrame streamId frame
  r.2.2.foldl SystemState.applyBufEvent { s with buffer := r.1 }

/-- The linear scan of `getNextProcessingJob`: best-priority job so far,
skipping active streams and streams with an empty backlog; strict `>` keeps
the first-seen job on ties. -/
def scanJobs (s : SystemState) :
    List (String × ProcessingJob) → Int → Option ProcessingJob →
    Option ProcessingJob
  | [], _, selected => selected
  | (_, job) :: rest, highest, selected =>
      if s.activeProcessing.contains job.streamId then
        scanJobs s rest highest selected
      else if s.buffer.isEmpty job.streamId then
        scanJobs s rest highest selected
      else if highest < job.priority then
        scanJobs s rest job.priority (some job)
      else
        scanJobs s rest highest selected

/-- `StreamProcessor.getNextProcessingJob`. -/
def SystemState.getNextProcessingJob (s : SystemState) :
    Option ProcessingJob :=
  if s.procQueue.isEmpty then none
  else scanJobs s s.procQueue (-1) none

/-- The synchronous activation prefix of `processNextBatch`: return unchanged
when stopped, at the concurrency ceiling, or with no eligible job; otherwise
move the selected stream into the active set and delete its job entry. -/
def SystemState.processNextBatch (s : SystemState) : SystemState :=
  if s.isProcessing = false
      ∨ s.maxConcurrentStreams ≤ s.activeProcessing.length then s
  else
    match s.getNextProcessingJob with
    | none => s
    | some job =>
        { s with activeProcessing := insertS s.activeProcessing job.streamId,
                 procQueue := eraseM s.procQueue job.streamId }

/-- `StreamProcessor.handleProcessingError`: look the stream up in the job
queue; a found job with fewer than 3 retries has its `retryCount`
incremented (visible at once, the queue holds the same object) and a timer of
`2^retryCount` seconds is scheduled to re-set it; otherwise a terminal
`processing:failed` is emitted with `job?.retryCount || 0` retries. -/
def SystemState.handleProcessingErrorFn (s : SystemState)
    (streamId : String) : SystemState × List ProcEvent :=
  match lookupM s.procQueue streamId with
  | some job =>
      if job.retryCount < 3 then
        let job2 := { job with retryCount := job.retryCount + 1 }
        ({ s with procQueue := insertM s.procQueue streamId job2,
                  pendingRetries := s.pendingRetries ++ [(streamId, job2)] },
         [ProcEvent.processingRetry streamId job2.retryCount
            (2 ^ job2.retryCount * 1000)])
      else (s, [ProcEvent.processingFailed streamId job.retryCount])
  | none => (s, [ProcEvent.processingFailed streamId 0])

/-- End of a failed pass: `handleProcessingError` followed by the `finally`
removal from the active set. -/
def SystemState.failPass (s : SystemState) (streamId : String) : SystemState :=
  let s1 := (s.handleProcessingErrorFn streamId).1
  { s1 with activeProcessing := s1.activeProcessing.filter (· ≠ streamId) }

/-- End of a successful pass: store the metrics snapshot, then the `finally`
removal from the active set. -/
def SystemState.completePass (s : SystemState) (streamId : String) :
    SystemState :=
  let m : ProcessingMetrics := { queueDepth := s.buffer.getBufferSize streamId }
  { s with processingMetrics := insertM s.processingMetrics streamId m,
           activeProcessing := s.activeProcessing.filter (· ≠ streamId) }

/-- One drain iteration of an active pass (`getFrames` with batch size 5). -/
def SystemState.drainStep (s : SystemState) (streamId : String) : SystemState :=
  { s with buffer := (s.buffer.getFrames streamId 5).1 }

/-- A retry timer firing: the head pending entry is re-`set` into the job
queue, then (separately) `processNextBatch` runs as its own step. -/
def SystemState.fireRetry (s : SystemState) (streamId : String)
    (job : ProcessingJob) : SystemState :=
  { s with procQueue := insertM s.procQueue streamId job,
           pendingRetries := s.pendingRetries.drop 1 }

/-- `StreamProcessor.removeStreamFromQueue`: drop the job, the active-set
membership and the metrics entry. -/
def SystemState.removeStreamFromQueue (s : SystemState) (streamId : String) :
    SystemState :=
  { s with procQueue := eraseM s.procQueue streamId,
           activeProcessing := s.activeProcessing.filter (· ≠ streamId),
           processingMetrics := eraseM s.processingMetrics streamId }

/-- `StreamRouter.removeRoute` together with the processor handler for
`route:removed` (`removeStreamFromQueue`). -/
def SystemState.removeRoute (s : SystemState) (streamId : String) :
    SystemState :=
  let s1 := { s with routerQueue := eraseM s.routerQueue streamId,
                     activeRoutes := s.activeRoutes.filter (· ≠ streamId) }
  s1.removeStreamFromQueue streamId

/-- `StreamIngestionService.handleDisconnection`: drop the user session and
active-stream record if the stream is known, then remove the stream from the
buffer, the router (whose handler clears the processor) and the processor. -/
def SystemState.handleDisconnection (s : SystemState) (streamId : String) :
    SystemState :=
  let s1 :=
    match lookupM s.activeStreams streamId with
    | some stream =>
        { s with userSessions := eraseM s.userSessions stream.userId,
                 activeStreams := eraseM s.activeStreams streamId }
    | none => s
  let s2 := { s1 with buffer := (s1.buffer.removeStream streamId).1 }
  let s3 := s2.removeRoute streamId
  s3.removeStreamFromQueue streamId

/-- One iteration bound of the drain loop of `processStream`: fetch a batch of 5,
stop on an empty batch, otherwise hand the batch to the enhancement oracle;
a batch failure is caught in place (`errors` incremented) and the loop
continues — it never escapes the pass. Fuel bounds the recursion; any fuel at
least the backlog size lets the loop run to exhaustion as the source does. -/
def runPassLoop (enhance : String → List VideoFrame → Bool) (streamId : String) :
    Nat → SystemState → Nat → Nat → SystemState × Nat × Nat × List ProcEvent
  | 0, s, processed, errors => (s, processed, errors, [])
  | Nat.succ fuel, s, processed, errors =>
      if s.isProcessing = false then (s, processed, errors, [])
      else
        let r := s.buffer.getFrames streamId 5
        if r.2.1.isEmpty then (s, processed, errors, [])
        else
          let s2 := { s with buffer := r.1 }
          if enhance streamId r.2.1 then
            let next := runPassLoop enhance streamId fuel s2
              (processed + r.2.1.length) errors
            (next.1, next.2.1, next.2.2.1,
             ProcEvent.batchProcessed streamId r.2.1.length :: next.2.2.2)
          else
            let next := runPassLoop enhance streamId fuel s2 processed
              (errors + 1)
            (next.1, next.2.1, next.2.2.1,
             ProcEvent.batchError streamId r.2.1.length :: next.2.2.2)

/-- `StreamProcessor.processStream`: the drain loop followed by the `finally`
block that stores metrics and emits `processing:completed` with the processed
and error counts. Batch failures never make this function fail. -/
def SystemState.processStream (s : SystemState) (streamId : String)
    (enhance : String → List VideoFrame → Bool) (fuel : Nat) :
    SystemState × List ProcEvent :=
  let r := runPassLoop enhance streamId fuel s 0 0
  let m : ProcessingMetrics := { queueDepth := r.1.buffer.getBufferSize streamId }
  ({ r.1 with processingMetrics := insertM r.1.processingMetrics streamId m },
   ProcEvent.processingStarted streamId :: r.2.2.2
     ++ [ProcEvent.processingCompleted streamId r.2.1 r.2.2.1])

/-- An enhancement collaborator that fails on every batch. -/
def failingEnhance : String → List VideoFrame → Bool := fun _ _ => false

/-- State of a freshly constructed `StreamIngestionService` (buffer capacity
30, concurrency ceiling 5, processor started). -/
def initState : SystemState :=
  { buffer := StreamBuffer.create 30
    routerQueue := []
    activeRoutes := []
    procQueue := []
    activeProcessing := []
    maxConcurrentStreams := 5
    processingMetrics := []
    isProcessing := true
    pendingRetries := []
    userSessions := []
    activeStreams := []
    clock := 0 }

/-- Every scheduler step the coordinator can take: frame pushes, admissions,
activation, drain iterations, pass completion or failure, retry-timer firing
and disconnection, each applying the corresponding source operation. -/
inductive SysStep : SystemState → SystemState → Prop
  | push : ∀ (s : SystemState) (streamId : String) (f : VideoFrame),
      SysStep s (s.pushFrame streamId f)
  | admitStream : ∀ (s : SystemState) (streamId : String) (p : Int),
      SysStep s (s.routeToAI streamId p)
  | activate : ∀ (s : SystemState), SysStep s s.processNextBatch
  | drain : ∀ (s : SystemState) (streamId : String),
      SysStep s (s.drainStep streamId)
  | finishOk : ∀ (s : SystemState) (streamId : String),
      SysStep s (s.completePass streamId)
  | finishErr : ∀ (s : SystemState) (streamId : String),
      SysStep s (s.failPass streamId)
  | fire : ∀ (s : SystemState) (streamId : String) (job : ProcessingJob)
      (rest : List (String × ProcessingJob)),
      s.pendingRetries = (streamId, job) :: rest →
      SysStep s (s.fireRetry streamId job)
  | disconnect : ∀ (s : SystemState) (streamId : String),
      SysStep s (s.handleDisconnection streamId)

/-- The same scheduler steps, restricted so that no admission and no retry
re-insertion targets a stream that is currently active. -/
inductive SysStepR : SystemState → SystemState → Prop
  | push : ∀ (s : SystemState) (streamId : String) (f : VideoFrame),
      SysStepR s (s.pushFrame streamId f)
  | admitStream : ∀ (s : SystemState) (streamId : String) (p : Int),
      s.activeProcessing.contains streamId = false →
      SysStepR s (s.routeToAI streamId p)
  | activate : ∀ (s : SystemState), SysStepR s s.processNextBatch
  | drain : ∀ (s : SystemState) (streamId : String),
      SysStepR s (s.drainStep streamId)
  | finishOk : ∀ (s : SystemState) (streamId : String),
      SysStepR s (s.completePass streamId)
  | finishErr : ∀ (s : SystemState) (streamId : String),
      SysStepR s (s.failPass streamId)
  | fire : ∀ (s : SystemState) (streamId : String) (job : ProcessingJob)
      (rest : List (String × ProcessingJob)),
      s.pendingRetries = (streamId, job) :: rest →
      s.activeProcessing.contains streamId = false →
      SysStepR s (s.fireRetry streamId job)
  | disconnect : ∀ (s : SystemState) (streamId : String),
      SysStepR s (s.handleDisconnection streamId)

/-- No stream is both in the active-processing set and in the coordinator
job queue. -/
def QueueActiveDisjoint (s : SystemState) : Prop :=
  ∀ streamId : String, s.activeProcessing.contains streamId = true →
    lookupM s.procQueue streamId = none

/-- State reached by pushing one frame to stream s, activating it, and then
re-admitting it while its pass is in flight. -/
def c3State : SystemState :=
  ((initState.pushFrame "s" (mkFrame 0)).processNextBatch).routeToAI "s" 1

/-- State reached by pushing three frames to stream s1 and activating it:
the job entry is gone from the queue and the stream is active. -/
def c2State : SystemState :=
  (((initState.pushFrame "s1" (mkFrame 0)).pushFrame "s1"
      (mkFrame 1)).pushFrame "s1" (mkFrame 2)).processNextBatch

/-- Double admission of the example stream of the spec with priorities 5 then 1. -/
def c4State : SystemState :=
  (initState.routeToAI "s2" 5).routeToAI "s2" 1

/-- A state whose active-processing set is at the concurrency ceiling. -/
def c6FullState : SystemState :=
  { initState with activeProcessing := ["a", "b", "c", "d", "e"] }


/-- One client-visible buffer operation on a single stream: a push, a
single-frame pop (`getNextFrame`) or a batch drain (`getFrames`). -/
inductive BufOp where
  | push (f : VideoFrame)
  | pop
  | drain (n : Nat)
deriving DecidableEq, Repr

/-- Run a sequence of buffer operations against one stream, concatenating the
frames the pops and drains return, in the order they were returned. -/
def runOps (streamId : String) :
    StreamBuffer → List BufOp → StreamBuffer × List VideoFrame
  | sb, [] => (sb, [])
  | sb, BufOp.push f :: rest => runOps streamId (sb.addFrame streamId f).1 rest
  | sb, BufOp.pop :: rest =>
      let r := sb.getNextFrame streamId
      let r2 := runOps streamId r.1 rest
      (r2.1, r.2.1.toList ++ r2.2)
  | sb, BufOp.drain n :: rest =>
      let r := sb.getFrames streamId n
      let r2 := runOps streamId r.1 rest
      (r2.1, r.2.1 ++ r2.2)

/-- The frames pushed by a sequence of buffer operations, in push order. -/
def pushesOf : List BufOp → List VideoFrame
  | [] => []
  | BufOp.push f :: rest => f :: pushesOf rest
  | BufOp.pop :: rest => pushesOf rest
  | BufOp.drain _ :: rest => pushesOf rest

/-- The user-session map points at this stream only through its own
recorded owner: the consistency the façade maintains because `addVideoStream`
writes `userSessions` and `activeStreams` together and `handleDisconnection`
clears them together. -/
def SessionConsistent (s : SystemState) (streamId : String) : Prop :=
  ∀ u : String, lookupM s.userSessions u = some streamId →
    ∃ st : VideoStream, lookupM s.activeStreams streamId = some st ∧
      st.userId = u

/-- A buffer holding exactly its capacity of frames on stream s1. -/
def c1FullBuffer : StreamBuffer :=
  (pushListEv (StreamBuffer.create 30) "s1" ((List.range 30).map mkFrame)).1

/-- A populated service state used to exercise `handleDisconnection`
concretely: stream s7 is registered to user u7, has two buffered frames, an
admission and a job entry. -/
def c7State : SystemState :=
  ((initState.pushFrame "s7" (mkFrame 0)).pushFrame "s7"
      (mkFrame 1)).routeToAI "s7" 2 |>
    fun s => { s with
      userSessions := [("u7", "s7")],
      activeStreams := [("s7",
        { streamId := "s7", userId := "u7", config := none, frames := [] })] }

/-- A fully-formed valid stream description with no frames attached. -/
def c9Stream : VideoStream :=
  { streamId := "s9", userId := "u9",
    config := some
      { resolution := { width := 1280, height := 720 },
        frameRate := 30, bitrate := 2500, audioEnabled := true },
    frames := [] }

/-- Lookup after the in-place replacement that `insertM` performs on an
existing key. -/
theorem lookupM_map_replace {β : Type} (k : String) (v : β) (k2 : String) :
    ∀ m : List (String × β),
      lookupM (m.map (fun p => if p.1 = k then (k, v) else p)) k2 =
        if k2 = k then (lookupM m k).map (fun _ => v) else lookupM m k2 := by
  intro m
  induction m with
  | nil => simp [lookupM]
  | cons p rest ih =>
    by_cases hp : p.1 = k
    · rw [List.map_cons, if_pos hp]
      by_cases hq : k2 = k
      · subst hq
        simp [lookupM, hp]
      · have hkq : ¬ k = k2 := fun hh => hq hh.symm
        have hpq : ¬ p.1 = k2 := by rw [hp]; exact hkq
        simp [lookupM, hq, hkq, hpq, ih]
    · rw [List.map_cons, if_neg hp]
      by_cases hq : k2 = k
      · subst hq
        simp [lookupM, hp, ih]
      · by_cases hr : p.1 = k2
        · simp [lookupM, hr, hq]
        · simp [lookupM, hr, hq, ih]

/-- Lookup after appending a binding for a key absent from the list. -/
theorem lookupM_append_single {β : Type} (k : String) (v : β) (k2 : String) :
    ∀ m : List (String × β), lookupM m k = none →
      lookupM (m ++ [(k, v)]) k2 = if k2 = k then some v else lookupM m k2 := by
  intro m
  induction m with
  | nil =>
    intro _
    by_cases hq : k2 = k
    · simp [lookupM, hq]
    · have : ¬ k = k2 := fun hh => hq hh.symm
      simp [lookupM, hq, this]
  | cons p rest ih =>
    intro h
    by_cases hp : p.1 = k
    · simp [lookupM, hp] at h
    · simp only [lookupM, if_neg hp] at h
      by_cases hr : p.1 = k2
      · have hq : ¬ k2 = k := fun hh => hp (hr.trans hh)
        simp [lookupM, hr, hq]
      · simp only [List.cons_append, lookupM, if_neg hr]
        exact ih h

/-- Full characterisation of lookup after `insertM`. -/
theorem lookupM_insertM {β : Type} (m : List (String × β)) (k : String)
    (v : β) (k2 : String) :
    lookupM (insertM m k v) k2 = if k2 = k then some v else lookupM m k2 := by
  unfold insertM
  split
  · rw [lookupM_map_replace]
    rename_i h
    obtain ⟨w, hw⟩ := Option.isSome_iff_exists.mp h
    by_cases hq : k2 = k <;> simp [hq, hw]
  · rename_i h
    have hn : lookupM m k = none := by
      cases hv : lookupM m k with
      | none => rfl
      | some w => rw [hv] at h; simp at h
    exact lookupM_append_single k v k2 m hn

/-- Looking up the key just written returns the new value. -/
theorem lookupM_insertM_self {β : Type} (m : List (String × β)) (k : String)
    (v : β) : lookupM (insertM m k v) k = some v := by
  simp [lookupM_insertM]

/-- Writing one key leaves the lookup of every other key unchanged. -/
theorem lookupM_insertM_ne {β : Type} (m : List (String × β)) (k : String)
    (v : β) (k2 : String) (h : k2 ≠ k) :
    lookupM (insertM m k v) k2 = lookupM m k2 := by
  simp [lookupM_insertM, h]

/-- Full characterisation of lookup after `eraseM`. -/
theorem lookupM_eraseM {β : Type} (m : List (String × β)) (k k2 : String) :
    lookupM (eraseM m k) k2 = if k2 = k then none else lookupM m k2 := by
  induction m with
  | nil => simp [eraseM, lookupM]
  | cons p rest ih =>
    by_cases hp : p.1 = k
    · have hstep : eraseM (p :: rest) k = eraseM rest k := by
        simp [eraseM, List.filter_cons, hp]
      rw [hstep, ih]
      by_cases hq : k2 = k
      · simp [hq]
      · have hpq : ¬ p.1 = k2 := fun hh => hq (hh.symm.trans hp)
        simp [hq, lookupM, hpq]
    · have hstep : eraseM (p :: rest) k = p :: eraseM rest k := by
        simp [eraseM, List.filter_cons, hp]
      rw [hstep]
      by_cases hr : p.1 = k2
      · have hq : ¬ k2 = k := fun hh => hp (hr.trans hh)
        simp [lookupM, hr, hq]
      · simp [lookupM, hr, ih]

/-- Erasing an already-erased key is a no-op. -/
theorem eraseM_idem {β : Type} (m : List (String × β)) (k : String) :
    eraseM (eraseM m k) k = eraseM m k := by
  unfold eraseM
  rw [List.filter_filter]
  apply List.filter_congr
  intro p _
  cases h : (p.1 == k) <;> simp [h]

/-- Filtering a string list twice by the same disequality is a no-op. -/
theorem filter_ne_idem (l : List String) (k : String) :
    (l.filter (· ≠ k)).filter (· ≠ k) = l.filter (· ≠ k) := by
  rw [List.filter_filter]
  apply List.filter_congr
  intro x _
  cases h : (decide (x ≠ k)) <;> simp_all

/-- The eviction quota never exceeds the capacity. -/
theorem evict_quota_le (c : Nat) : c * 3 / 10 ≤ c := by
  calc c * 3 / 10 ≤ c * 3 / 3 := Nat.div_le_div_left (by norm_num) (by norm_num)
    _ = c := Nat.mul_div_cancel c (by norm_num)

/-- `addFrame` on a stream at (or beyond) capacity reduces to the overflow
path. -/
theorem addFrame_of_full (sb : StreamBuffer) (streamId : String)
    (f : VideoFrame) (h : sb.maxBufferSize ≤ (bufferContents sb streamId).length) :
    sb.addFrame streamId f =
      ((sb.handleOverflow streamId (bufferContents sb streamId)).1, false,
       (sb.handleOverflow streamId (bufferContents sb streamId)).2) := by
  unfold StreamBuffer.addFrame
  rw [if_pos h]

/-- `addFrame` below capacity reduces to the append path. -/
theorem addFrame_of_notfull (sb : StreamBuffer) (streamId : String)
    (f : VideoFrame)
    (h : ¬ sb.maxBufferSize ≤ (bufferContents sb streamId).length) :
    sb.addFrame streamId f =
      ({ sb with buffers := insertM sb.buffers streamId (bufferContents sb streamId ++ [f]) },
       true,
       (if (bufferContents sb streamId ++ [f]).length = sb.highWaterMark then
          [BufEvent.highWater streamId (bufferContents sb streamId ++ [f]).length]
        else [])
       ++ [BufEvent.frameAdded streamId
             (bufferContents sb streamId ++ [f]).length]) := by
  unfold StreamBuffer.addFrame
  rw [if_neg h]

/-- Contents of the pushed stream after `addFrame`: either the eviction tail
(frame dropped) or the old contents with the frame appended. -/
theorem addFrame_contents (sb : StreamBuffer) (streamId : String)
    (f : VideoFrame) :
    bufferContents (sb.addFrame streamId f).1 streamId =
        (bufferContents sb streamId).drop (sb.maxBufferSize * 3 / 10) ∨
    bufferContents (sb.addFrame streamId f).1 streamId =
        bufferContents sb streamId ++ [f] := by
  by_cases h : sb.maxBufferSize ≤ (bufferContents sb streamId).length
  · left
    rw [addFrame_of_full sb streamId f h]
    simp [StreamBuffer.handleOverflow, bufferContents, lookupM_insertM_self]
  · right
    rw [addFrame_of_notfull sb streamId f h]
    simp [bufferContents, lookupM_insertM_self]

/-- `addFrame` preserves the configured capacity. -/
theorem addFrame_max_eq (sb : StreamBuffer) (streamId : String)
    (f : VideoFrame) :
    (sb.addFrame streamId f).1.maxBufferSize = sb.maxBufferSize := by
  by_cases h : sb.maxBufferSize ≤ (bufferContents sb streamId).length
  · rw [addFrame_of_full sb streamId f h]
    simp [StreamBuffer.handleOverflow]
  · rw [addFrame_of_notfull sb streamId f h]

/-- `addFrame` keeps the backlog of the pushed stream within capacity. -/
theorem addFrame_size_le (sb : StreamBuffer) (streamId : String)
    (f : VideoFrame) (h : sb.getBufferSize streamId ≤ sb.maxBufferSize) :
    (sb.addFrame streamId f).1.getBufferSize streamId ≤ sb.maxBufferSize := by
  by_cases hfull : sb.maxBufferSize ≤ (bufferContents sb streamId).length
  · rw [addFrame_of_full sb streamId f hfull]
    simp only [StreamBuffer.handleOverflow, StreamBuffer.getBufferSize,
      bufferContents, lookupM_insertM_self, Option.getD_some]
    calc ((bufferContents sb streamId).drop (sb.maxBufferSize * 3 / 10)).length
        ≤ (bufferContents sb streamId).length := by
          rw [List.length_drop]; omega
      _ ≤ sb.maxBufferSize := h
  · rw [addFrame_of_notfull sb streamId f hfull]
    simp only [StreamBuffer.getBufferSize, bufferContents,
      lookupM_insertM_self, Option.getD_some, List.length_append,
      List.length_singleton]
    have : (bufferContents sb streamId).length < sb.maxBufferSize := by
      omega
    simpa [StreamBuffer.getBufferSize, bufferContents] using this

/-- An overflow signal emitted by `addFrame` on a within-capacity stream
carries exactly the eviction quota and the post-eviction size
`capacity - quota`. -/
theorem addFrame_overflow_event (sb : StreamBuffer) (streamId : String)
    (f : VideoFrame) (h : sb.getBufferSize streamId ≤ sb.maxBufferSize)
    (k n : Nat)
    (hmem : BufEvent.overflow streamId k n ∈ (sb.addFrame streamId f).2.2) :
    k = sb.maxBufferSize * 3 / 10 ∧
    n = sb.maxBufferSize - sb.maxBufferSize * 3 / 10 := by
  by_cases hfull : sb.maxBufferSize ≤ (bufferContents sb streamId).length
  · have hlen : (bufferContents sb streamId).length = sb.maxBufferSize := by
      have := h
      simp only [StreamBuffer.getBufferSize] at this
      omega
    rw [addFrame_of_full sb streamId f hfull] at hmem
    simp only [StreamBuffer.handleOverflow, List.mem_singleton,
      BufEvent.overflow.injEq] at hmem
    obtain ⟨_, hk, hn⟩ := hmem
    constructor
    · rw [hk, List.length_take, hlen]
      exact Nat.min_eq_left (evict_quota_le sb.maxBufferSize)
    · rw [hn, List.length_drop, hlen]
  · rw [addFrame_of_notfull sb streamId f hfull] at hmem
    simp only [List.mem_append, List.mem_singleton] at hmem
    rcases hmem with hmem | hmem
    · split at hmem <;> simp at hmem
    · simp at hmem

/-- Pushing any frame list into a within-capacity stream keeps it within
capacity, preserves the configured capacity, and every overflow signal along
the way reports the eviction quota and the post-eviction size. -/
theorem pushListEv_spec (streamId : String) :
    ∀ (frames : List VideoFrame) (sb : StreamBuffer),
      sb.getBufferSize streamId ≤ sb.maxBufferSize →
      ((pushListEv sb streamId frames).1.getBufferSize streamId ≤
          sb.maxBufferSize ∧
       (pushListEv sb streamId frames).1.maxBufferSize = sb.maxBufferSize ∧
       ∀ k n, BufEvent.overflow streamId k n ∈
           (pushListEv sb streamId frames).2 →
         k = sb.maxBufferSize * 3 / 10 ∧
         n = sb.maxBufferSize - sb.maxBufferSize * 3 / 10) := by
  intro frames
  induction frames with
  | nil =>
    intro sb h
    exact ⟨h, rfl, by intro k n hmem; simp [pushListEv] at hmem⟩
  | cons f rest ih =>
    intro sb h
    have hsize := addFrame_size_le sb streamId f h
    have hmax := addFrame_max_eq sb streamId f
    have hsize2 : (sb.addFrame streamId f).1.getBufferSize streamId ≤
        (sb.addFrame streamId f).1.maxBufferSize := by rw [hmax]; exact hsize
    obtain ⟨ih1, ih2, ih3⟩ := ih (sb.addFrame streamId f).1 hsize2
    refine ⟨?_, ?_, ?_⟩
    · simpa [pushListEv, hmax] using ih1
    · simpa [pushListEv, hmax] using ih2
    · intro k n hmem
      simp only [pushListEv, List.mem_append] at hmem
      rcases hmem with hmem | hmem
      · exact addFrame_overflow_event sb streamId f h k n hmem
      · have := ih3 k n hmem
        rwa [hmax] at this

/-- C1 (amended): `addFrame` on a stream at capacity evicts the oldest
⌊0.3·capacity⌋ frames and emits one overflow signal carrying the number
evicted, but returns `false` and DROPS the incoming frame instead of
appending it; consequently the example of the spec — 35 frames pushed one at a
time into a fresh capacity-30 stream — produces exactly one overflow event
reporting 9 evicted frames and a final size of 25, not 26. -/
theorem c1_overflow_drops_new_frame :
    (∀ (sb : StreamBuffer) (streamId : String) (f : VideoFrame),
      sb.maxBufferSize ≤ sb.getBufferSize streamId →
        ((sb.addFrame streamId f).2.1 = false ∧
         bufferContents (sb.addFrame streamId f).1 streamId =
           (bufferContents sb streamId).drop (sb.maxBufferSize * 3 / 10) ∧
         (sb.addFrame streamId f).2.2 =
           [BufEvent.overflow streamId
             ((bufferContents sb streamId).take (sb.maxBufferSize * 3 / 10)).length
             ((bufferContents sb streamId).drop (sb.maxBufferSize * 3 / 10)).length])) ∧
    ((pushListEv (StreamBuffer.create 30) "s1" c1Frames).1.getBufferSize "s1"
        = 25 ∧
     (pushListEv (StreamBuffer.create 30) "s1" c1Frames).2.filter
        isOverflowEvent = [BufEvent.overflow "s1" 9 21]) := by
  constructor
  · intro sb streamId f h
    have hfull : sb.maxBufferSize ≤ (bufferContents sb streamId).length := h
    rw [addFrame_of_full sb streamId f hfull]
    refine ⟨rfl, ?_, rfl⟩
    simp [StreamBuffer.handleOverflow, bufferContents, lookupM_insertM_self]
  · exact ⟨by decide, by decide⟩

/-- C1 witness: the general overflow clause applied to a buffer filled to its
capacity of 30 on stream s1 and one more incoming frame. -/
theorem c1_overflow_drops_new_frame_witness :
    (c1FullBuffer.addFrame "s1" (mkFrame 99)).2.1 = false ∧
    bufferContents (c1FullBuffer.addFrame "s1" (mkFrame 99)).1 "s1" =
      (bufferContents c1FullBuffer "s1").drop
        (c1FullBuffer.maxBufferSize * 3 / 10) ∧
    (c1FullBuffer.addFrame "s1" (mkFrame 99)).2.2 =
      [BufEvent.overflow "s1"
        ((bufferContents c1FullBuffer "s1").take
          (c1FullBuffer.maxBufferSize * 3 / 10)).length
        ((bufferContents c1FullBuffer "s1").drop
          (c1FullBuffer.maxBufferSize * 3 / 10)).length] :=
  c1_overflow_drops_new_frame.1 c1FullBuffer "s1" (mkFrame 99) (by decide)

/-- C1 counterexample: pushing the 35-frame example sequence into a fresh
capacity-30 stream leaves 25 buffered frames, not the 26 the claim asserts,
because the push that triggers the single 9-frame eviction drops its frame. -/
theorem c1_counterexample :
    ¬ ((pushListEv (StreamBuffer.create 30) "s1" c1Frames).1.getBufferSize "s1"
        = 26) ∧
    (pushListEv (StreamBuffer.create 30) "s1" c1Frames).1.getBufferSize "s1"
        = 25 ∧
    (pushListEv (StreamBuffer.create 30) "s1" c1Frames).2.filter
        isOverflowEvent = [BufEvent.overflow "s1" 9 21] := by
  exact ⟨by decide, by decide, by decide⟩

/-- C5 (amended): for every capacity and every push sequence into one fresh
stream the size never exceeds the capacity, and immediately after any
overflow the size equals `capacity − evictedCount` (not `+ 1`: the
triggering frame is dropped), with `evictedCount = ⌊0.3·capacity⌋`. -/
theorem c5_capacity_invariant :
    ∀ (cap : Nat) (streamId : String) (frames : List VideoFrame),
      (pushListEv (StreamBuffer.create cap) streamId frames).1.getBufferSize
          streamId ≤ cap ∧
      ∀ k n, BufEvent.overflow streamId k n ∈
          (pushListEv (StreamBuffer.create cap) streamId frames).2 →
        k = cap * 3 / 10 ∧ n = cap - cap * 3 / 10 := by
  intro cap streamId frames
  have h0 : (StreamBuffer.create cap).getBufferSize streamId ≤
      (StreamBuffer.create cap).maxBufferSize := by
    simp [StreamBuffer.create, StreamBuffer.getBufferSize, bufferContents,
      lookupM]
  obtain ⟨h1, _, h3⟩ := pushListEv_spec streamId frames
    (StreamBuffer.create cap) h0
  exact ⟨h1, h3⟩

/-- C5 witness: the invariant applied to 31 pushes into a fresh capacity-30
stream, whose final overflow event reports 9 evicted and size 21. -/
theorem c5_capacity_invariant_witness :
    (pushListEv (StreamBuffer.create 30) "s1"
        ((List.range 31).map mkFrame)).1.getBufferSize "s1" ≤ 30 ∧
    (9 = 30 * 3 / 10 ∧ 21 = 30 - 30 * 3 / 10) :=
  ⟨(c5_capacity_invariant 30 "s1" ((List.range 31).map mkFrame)).1,
   (c5_capacity_invariant 30 "s1" ((List.range 31).map mkFrame)).2 9 21
     (by decide)⟩

/-- C5 counterexample: after the overflow triggered by the 31st push into a
fresh capacity-30 stream the size is 21 = capacity − evictedCount, not
capacity − evictedCount + 1 = 22 as the claim asserts. -/
theorem c5_counterexample :
    BufEvent.overflow "s1" 9 21 ∈
      (pushListEv (StreamBuffer.create 30) "s1"
        ((List.range 31).map mkFrame)).2 ∧
    (pushListEv (StreamBuffer.create 30) "s1"
        ((List.range 31).map mkFrame)).1.getBufferSize "s1" = 21 ∧
    ¬ (21 = 30 - 9 + 1) := by
  exact ⟨by decide, by decide, by decide⟩

/-- Full characterisation of one `getFrames` drain: it returns the oldest
`min count size` frames, leaves exactly the rest, never exceeds `count`, and
return plus remainder reassemble the original backlog. -/
theorem getFrames_spec (sb : StreamBuffer) (streamId : String) (count : Nat) :
    (sb.getFrames streamId count).2.1 =
        (bufferContents sb streamId).take
          (min count (bufferContents sb streamId).length) ∧
    bufferContents (sb.getFrames streamId count).1 streamId =
        (bufferContents sb streamId).drop
          (min count (bufferContents sb streamId).length) ∧
    (sb.getFrames streamId count).2.1.length ≤ count ∧
    (sb.getFrames streamId count).2.1 ++
        bufferContents (sb.getFrames streamId count).1 streamId =
      bufferContents sb streamId := by
  by_cases hz : (bufferContents sb streamId).length = 0
  · have he : bufferContents sb streamId = [] := List.length_eq_zero.mp hz
    simp [StreamBuffer.getFrames, hz, he]
  · have hred : sb.getFrames streamId count =
        ({ sb with buffers := insertM sb.buffers streamId ((bufferContents sb streamId).drop (min count (bufferContents sb streamId).length)) },
         (bufferContents sb streamId).take
           (min count (bufferContents sb streamId).length),
         [BufEvent.framesRetrieved streamId
           ((bufferContents sb streamId).take
             (min count (bufferContents sb streamId).length)).length
           ((bufferContents sb streamId).drop
             (min count (bufferContents sb streamId).length)).length]) := by
      unfold StreamBuffer.getFrames
      rw [if_neg hz]
    rw [hred]
    refine ⟨rfl, ?_, ?_, ?_⟩
    · simp [bufferContents, lookupM_insertM_self]
    · simp only [List.length_take]
      omega
    · simp only [bufferContents, lookupM_insertM_self, Option.getD_some]
      exact List.take_append_drop _ _

/-- One `getNextFrame` pop returns a prefix of the backlog: the popped frame
(if any) followed by the remaining contents is the original backlog. -/
theorem getNextFrame_split (sb : StreamBuffer) (streamId : String) :
    (sb.getNextFrame streamId).2.1.toList ++
        bufferContents (sb.getNextFrame streamId).1 streamId =
      bufferContents sb streamId := by
  cases hc : bufferContents sb streamId with
  | nil =>
    have hc2 : (lookupM sb.buffers streamId).getD [] = [] := hc
    simp [StreamBuffer.getNextFrame, bufferContents, hc2]
  | cons f rest =>
    have hc2 : (lookupM sb.buffers streamId).getD [] = f :: rest := hc
    simp [StreamBuffer.getNextFrame, bufferContents, hc2, lookupM_insertM_self]

/-- Across any operation sequence on one stream, the frames returned so far
followed by the remaining backlog form a sublist of the original backlog
followed by the frames pushed, in order. -/
theorem runOps_sublist (streamId : String) :
    ∀ (ops : List BufOp) (sb : StreamBuffer),
      List.Sublist
        ((runOps streamId sb ops).2 ++
          bufferContents (runOps streamId sb ops).1 streamId)
        (bufferContents sb streamId ++ pushesOf ops) := by
  intro ops
  induction ops with
  | nil =>
    intro sb
    simp [runOps, pushesOf]
  | cons op rest ih =>
    intro sb
    cases op with
    | push f =>
      have ihs := ih (sb.addFrame streamId f).1
      simp only [runOps, pushesOf]
      rcases addFrame_contents sb streamId f with hc | hc
      · rw [hc] at ihs
        have h1 : List.Sublist
            (List.drop (sb.maxBufferSize * 3 / 10) (bufferContents sb streamId)
              ++ pushesOf rest)
            (bufferContents sb streamId ++ pushesOf rest) :=
          (List.drop_sublist _ _).append_right (pushesOf rest)
        have h2 : List.Sublist
            (bufferContents sb streamId ++ pushesOf rest)
            (bufferContents sb streamId ++ (f :: pushesOf rest)) :=
          (List.sublist_cons_self f (pushesOf rest)).append_left
            (bufferContents sb streamId)
        exact ihs.trans (h1.trans h2)
      · rw [hc] at ihs
        rw [List.append_assoc, List.singleton_append] at ihs
        exact ihs
    | pop =>
      have hsplit := getNextFrame_split sb streamId
      have ihs := ih (sb.getNextFrame streamId).1
      simp only [runOps, pushesOf]
      rw [List.append_assoc]
      have step1 := ihs.append_left (sb.getNextFrame streamId).2.1.toList
      have key : (sb.getNextFrame streamId).2.1.toList ++
          (bufferContents (sb.getNextFrame streamId).1 streamId ++
            pushesOf rest) =
          bufferContents sb streamId ++ pushesOf rest := by
        rw [← List.append_assoc, hsplit]
      rw [key] at step1
      exact step1
    | drain n =>
      have hsplit := (getFrames_spec sb streamId n).2.2.2
      have ihs := ih (sb.getFrames streamId n).1
      simp only [runOps, pushesOf]
      rw [List.append_assoc]
      have step1 := ihs.append_left (sb.getFrames streamId n).2.1
      have key : (sb.getFrames streamId n).2.1 ++
          (bufferContents (sb.getFrames streamId n).1 streamId ++
            pushesOf rest) =
          bufferContents sb streamId ++ pushesOf rest := by
        rw [← List.append_assoc, hsplit]
      rw [key] at step1
      exact step1

/-- C8: over any interleaving of pushes, pops and drains on one stream
starting from a fresh buffer, the concatenated returned frames form a
(possibly truncated) sublist of the push order, never reordered; and each
`getFrames` drain returns at most `count` frames, oldest first, removing
exactly the frames it returns. -/
theorem c8_fifo_order :
    (∀ (cap : Nat) (streamId : String) (ops : List BufOp),
      List.Sublist (runOps streamId (StreamBuffer.create cap) ops).2
        (pushesOf ops)) ∧
    (∀ (sb : StreamBuffer) (streamId : String) (count : Nat),
      (sb.getFrames streamId count).2.1 =
          (bufferContents sb streamId).take
            (min count (bufferContents sb streamId).length) ∧
      (sb.getFrames streamId count).2.1.length ≤ count ∧
      (sb.getFrames streamId count).2.1 ++
          bufferContents (sb.getFrames streamId count).1 streamId =
        bufferContents sb streamId) := by
  constructor
  · intro cap streamId ops
    have h := runOps_sublist streamId ops (StreamBuffer.create cap)
    have hinit : bufferContents (StreamBuffer.create cap) streamId = [] := by
      simp [StreamBuffer.create, bufferContents, lookupM]
    rw [hinit, List.nil_append] at h
    exact (List.sublist_append_left _ _).trans h
  · intro sb streamId count
    obtain ⟨h1, _, h3, h4⟩ := getFrames_spec sb streamId count
    exact ⟨h1, h3, h4⟩

/-- C10: batch draining (`getFrames`) never emits a low-water signal, while a
single-frame pop (`getNextFrame`) emits one exactly when the post-removal
backlog length equals the low-water mark. -/
theorem c10_low_water_only_on_pop :
    (∀ (sb : StreamBuffer) (streamId : String) (count : Nat)
        (sid : String) (m : Nat),
      BufEvent.lowWater sid m ∉ (sb.getFrames streamId count).2.2) ∧
    (∀ (sb : StreamBuffer) (streamId : String) (m : Nat),
      BufEvent.lowWater streamId m ∈ (sb.getNextFrame streamId).2.2 ↔
        ∃ (f : VideoFrame) (rest : List VideoFrame),
          bufferContents sb streamId = f :: rest ∧
          rest.length = sb.lowWaterMark ∧ m = sb.lowWaterMark) := by
  constructor
  · intro sb streamId count sid m
    by_cases hz : (bufferContents sb streamId).length = 0
    · simp [StreamBuffer.getFrames, hz]
    · simp [StreamBuffer.getFrames, hz]
  · intro sb streamId m
    cases hc : bufferContents sb streamId with
    | nil =>
      simp [StreamBuffer.getNextFrame, hc]
    | cons f rest =>
      by_cases hl : rest.length = sb.lowWaterMark
      · simp only [StreamBuffer.getNextFrame, hc, if_pos hl]
        constructor
        · intro hmem
          simp only [List.mem_append, List.mem_singleton] at hmem
          rcases hmem with hmem | hmem
          · cases hmem
            exact ⟨f, rest, rfl, hl, hl.symm ▸ rfl⟩
          · cases hmem
        · intro ⟨f2, rest2, heq, _, hm⟩
          cases heq
          subst hm
          simp [hl]
      · simp only [StreamBuffer.getNextFrame, hc, if_neg hl]
        constructor
        · intro hmem
          simp at hmem
        · intro ⟨f2, rest2, heq, hlen, _⟩
          cases heq
          exact absurd hlen hl

/-- C10 witness: popping from a 10-frame stream on a capacity-30 buffer
(low-water mark 9) emits the low-water signal, while a batch drain from the
same buffer never does. -/
theorem c10_low_water_only_on_pop_witness :
    BufEvent.lowWater "s1" 9 ∉
      ((pushListEv (StreamBuffer.create 30) "s1"
        ((List.range 10).map mkFrame)).1.getFrames "s1" 1).2.2 ∧
    BufEvent.lowWater "s1" 9 ∈
      ((pushListEv (StreamBuffer.create 30) "s1"
        ((List.range 10).map mkFrame)).1.getNextFrame "s1").2.2 :=
  ⟨c10_low_water_only_on_pop.1
      (pushListEv (StreamBuffer.create 30) "s1"
        ((List.range 10).map mkFrame)).1 "s1" 1 "s1" 9,
   (c10_low_water_only_on_pop.2
      (pushListEv (StreamBuffer.create 30) "s1"
        ((List.range 10).map mkFrame)).1 "s1" 9).mpr
     ⟨mkFrame 0, (List.range 9).map (fun i => mkFrame (i + 1)),
      by decide, by decide, by decide⟩⟩

/-- C9: `validateStream` accepts exactly the descriptions with a non-blank
stream id and user id, a config present, both resolution axes positive, frame
rate in (0, 120] and positive bitrate; missing frames only warn, and a
resolution above 1920×1080 warns without failing validation. -/
theorem c9_validate_characterisation (stream : VideoStream) :
    ((validateStream stream).isValid = true ↔
      (isBlank stream.streamId = false ∧ isBlank stream.userId = false ∧
       ∃ cfg, stream.config = some cfg ∧
         0 < cfg.resolution.width ∧ 0 < cfg.resolution.height ∧
         0 < cfg.frameRate ∧ cfg.frameRate ≤ 120 ∧ 0 < cfg.bitrate)) ∧
    (stream.frames = [] →
      "No video frames present in stream" ∈ (validateStream stream).warnings) ∧
    (∀ cfg, stream.config = some cfg →
      (1920 < cfg.resolution.width ∨ 1080 < cfg.resolution.height) →
      "High resolution may impact processing performance" ∈
        (validateStream stream).warnings) := by
  refine ⟨?_, ?_, ?_⟩
  · cases hcfg : stream.config with
    | none =>
      by_cases h1 : isBlank stream.streamId = true <;>
        by_cases h2 : isBlank stream.userId = true <;>
          simp [validateStream, hcfg, h1, h2]
    | some cfg =>
      by_cases h1 : isBlank stream.streamId = true <;>
      by_cases h2 : isBlank stream.userId = true <;>
      by_cases h3 : cfg.resolution.width ≤ 0 ∨ cfg.resolution.height ≤ 0 <;>
      by_cases h4 : cfg.frameRate ≤ 0 ∨ 120 < cfg.frameRate <;>
      by_cases h5 : cfg.bitrate ≤ 0 <;>
        simp [validateStream, hcfg, h1, h2, h3, h4, h5] <;>
          omega
  · intro hframes
    cases hcfg : stream.config with
    | none => simp [validateStream, hcfg, hframes]
    | some cfg => simp [validateStream, hcfg, hframes]
  · intro cfg hcfg hres
    simp only [validateStream, hcfg]
    rw [if_pos hres]
    simp

/-- C9 witness: a fully-formed 1280×720 description with no frames validates
successfully and receives the missing-frames warning. -/
theorem c9_validate_characterisation_witness :
    (validateStream c9Stream).isValid = true ∧
    "No video frames present in stream" ∈ (validateStream c9Stream).warnings :=
  ⟨(c9_validate_characterisation c9Stream).1.mpr
     ⟨by decide, by decide,
      ⟨{ resolution := { width := 1280, height := 720 },
         frameRate := 30, bitrate := 2500, audioEnabled := true },
       rfl, by decide, by decide, by decide, by decide, by decide⟩⟩,
   (c9_validate_characterisation c9Stream).2.1 rfl⟩

/-- Bridge between the boolean `contains` used by the embedded code and list
membership. -/
theorem contains_iff_mem (l : List String) (a : String) :
    l.contains a = true ↔ a ∈ l := by
  simp

/-- Membership in `insertS` comes from the old set or the inserted key. -/
theorem insertS_contains (l : List String) (x k : String)
    (h : (insertS l x).contains k = true) :
    l.contains k = true ∨ k = x := by
  unfold insertS at h
  split at h
  · exact Or.inl h
  · rw [contains_iff_mem] at h
    rcases List.mem_append.mp h with hm | hm
    · exact Or.inl ((contains_iff_mem l k).mpr hm)
    · exact Or.inr (List.mem_singleton.mp hm)

/-- `insertS` grows the set by at most one element. -/
theorem insertS_length (l : List String) (x : String) :
    (insertS l x).length ≤ l.length + 1 := by
  unfold insertS
  split
  · omega
  · simp

/-- A key never survives filtering by its own disequality. -/
theorem contains_filter_self (l : List String) (k : String) :
    (l.filter (· ≠ k)).contains k = false := by
  by_contra h
  rw [Bool.not_eq_false, contains_iff_mem, List.mem_filter] at h
  simp at h

/-- Keys surviving the filter were present and differ from the filtered
key. -/
theorem contains_filter_ne (l : List String) (k x : String)
    (h : (l.filter (· ≠ k)).contains x = true) :
    l.contains x = true ∧ x ≠ k := by
  rw [contains_iff_mem, List.mem_filter] at h
  refine ⟨(contains_iff_mem l x).mpr h.1, by simpa using h.2⟩

/-- A fold that preserves a predicate preserves it over any event list. -/
theorem foldl_preserves {α β : Type} (P : α → Prop) (f : α → β → α)
    (h : ∀ a b, P a → P (f a b)) :
    ∀ (l : List β) (a : α), P a → P (l.foldl f a) := by
  intro l
  induction l with
  | nil => intro a ha; exact ha
  | cons b rest ih => intro a ha; exact ih (f a b) (h a b ha)

/-- `addStreamToQueue` touches only the job queue. -/
theorem addStreamToQueue_active (s : SystemState) (streamId : String)
    (p : Int) :
    (s.addStreamToQueue streamId p).activeProcessing = s.activeProcessing := by
  unfold SystemState.addStreamToQueue
  cases lookupM s.procQueue streamId <;> rfl

/-- `addStreamToQueue` preserves the concurrency ceiling value. -/
theorem addStreamToQueue_max (s : SystemState) (streamId : String) (p : Int) :
    (s.addStreamToQueue streamId p).maxConcurrentStreams =
      s.maxConcurrentStreams := by
  unfold SystemState.addStreamToQueue
  cases lookupM s.procQueue streamId <;> rfl

/-- `addStreamToQueue` leaves job-queue entries of other streams unchanged. -/
theorem addStreamToQueue_queue_ne (s : SystemState) (streamId : String)
    (p : Int) (k : String) (h : k ≠ streamId) :
    lookupM (s.addStreamToQueue streamId p).procQueue k =
      lookupM s.procQueue k := by
  unfold SystemState.addStreamToQueue
  cases hx : lookupM s.procQueue streamId <;>
    simp [lookupM_insertM_ne _ _ _ _ h]

/-- Buffer-event handlers touch only the job queue. -/
theorem applyBufEvent_active (s : SystemState) (e : BufEvent) :
    (s.applyBufEvent e).activeProcessing = s.activeProcessing := by
  unfold SystemState.applyBufEvent
  cases e <;> try rfl
  case overflow sid removed size =>
    cases hx : lookupM s.procQueue sid <;> simp [hx]
  case frameAdded sid size =>
    dsimp only
    split
    · exact addStreamToQueue_active ..
    · rfl

/-- Buffer-event handlers preserve the concurrency ceiling value. -/
theorem applyBufEvent_max (s : SystemState) (e : BufEvent) :
    (s.applyBufEvent e).maxConcurrentStreams = s.maxConcurrentStreams := by
  unfold SystemState.applyBufEvent
  cases e <;> try rfl
  case overflow sid removed size =>
    cases hx : lookupM s.procQueue sid <;> simp [hx]
  case frameAdded sid size =>
    dsimp only
    split
    · exact addStreamToQueue_max ..
    · rfl

/-- A frame push touches only the buffer and the job queue. -/
theorem pushFrame_active (s : SystemState) (streamId : String)
    (f : VideoFrame) :
    (s.pushFrame streamId f).activeProcessing = s.activeProcessing := by
  unfold SystemState.pushFrame
  exact foldl_preserves (fun t => t.activeProcessing = s.activeProcessing)
    SystemState.applyBufEvent
    (fun a b ha => (applyBufEvent_active a b).trans ha)
    (s.buffer.addFrame streamId f).2.2
    { s with buffer := (s.buffer.addFrame streamId f).1 } rfl

/-- A frame push preserves the concurrency ceiling value. -/
theorem pushFrame_max (s : SystemState) (streamId : String) (f : VideoFrame) :
    (s.pushFrame streamId f).maxConcurrentStreams =
      s.maxConcurrentStreams := by
  unfold SystemState.pushFrame
  exact foldl_preserves
    (fun t => t.maxConcurrentStreams = s.maxConcurrentStreams)
    SystemState.applyBufEvent
    (fun a b ha => (applyBufEvent_max a b).trans ha)
    (s.buffer.addFrame streamId f).2.2
    { s with buffer := (s.buffer.addFrame streamId f).1 } rfl

/-- Admission touches only the router structures and the job queue. -/
theorem routeToAI_active (s : SystemState) (streamId : String) (p : Int) :
    (s.routeToAI streamId p).activeProcessing = s.activeProcessing := by
  unfold SystemState.routeToAI
  rw [addStreamToQueue_active]

/-- Admission preserves the concurrency ceiling value. -/
theorem routeToAI_max (s : SystemState) (streamId : String) (p : Int) :
    (s.routeToAI streamId p).maxConcurrentStreams =
      s.maxConcurrentStreams := by
  unfold SystemState.routeToAI
  rw [addStreamToQueue_max]

/-- `handleProcessingErrorFn` touches only the job queue and the retry
timers. -/
theorem handleProcessingError_active (s : SystemState) (streamId : String) :
    (s.handleProcessingErrorFn streamId).1.activeProcessing =
      s.activeProcessing := by
  unfold SystemState.handleProcessingErrorFn
  cases lookupM s.procQueue streamId with
  | none => rfl
  | some job =>
    by_cases h : job.retryCount < 3
    · simp [h]
    · simp [h]

/-- `handleProcessingErrorFn` preserves the concurrency ceiling value. -/
theorem handleProcessingError_max (s : SystemState) (streamId : String) :
    (s.handleProcessingErrorFn streamId).1.maxConcurrentStreams =
      s.maxConcurrentStreams := by
  unfold SystemState.handleProcessingErrorFn
  cases lookupM s.procQueue streamId with
  | none => rfl
  | some job =>
    by_cases h : job.retryCount < 3
    · simp [h]
    · simp [h]

/-- `handleProcessingErrorFn` leaves job entries of other streams unchanged. -/
theorem handleProcessingError_queue_ne (s : SystemState) (streamId : String)
    (k : String) (h : k ≠ streamId) :
    lookupM (s.handleProcessingErrorFn streamId).1.procQueue k =
      lookupM s.procQueue k := by
  unfold SystemState.handleProcessingErrorFn
  cases hx : lookupM s.procQueue streamId with
  | none => rfl
  | some job =>
    by_cases hr : job.retryCount < 3
    · simp [hr, lookupM_insertM_ne _ _ _ _ h]
    · simp [hr]

/-- Teardown filters the active set (twice: once via the router handler, once
directly). -/
theorem hd_active (s : SystemState) (streamId : String) :
    (s.handleDisconnection streamId).activeProcessing =
      (s.activeProcessing.filter (· ≠ streamId)).filter (· ≠ streamId) := by
  unfold SystemState.handleDisconnection SystemState.removeRoute
    SystemState.removeStreamFromQueue
  cases hx : lookupM s.activeStreams streamId <;> simp [hx]

/-- Teardown erases the job entry (twice). -/
theorem hd_queue (s : SystemState) (streamId : String) :
    (s.handleDisconnection streamId).procQueue =
      eraseM (eraseM s.procQueue streamId) streamId := by
  unfold SystemState.handleDisconnection SystemState.removeRoute
    SystemState.removeStreamFromQueue
  cases hx : lookupM s.activeStreams streamId <;> simp [hx]

/-- Teardown erases the router admission entry. -/
theorem hd_router (s : SystemState) (streamId : String) :
    (s.handleDisconnection streamId).routerQueue =
      eraseM s.routerQueue streamId := by
  unfold SystemState.handleDisconnection SystemState.removeRoute
    SystemState.removeStreamFromQueue
  cases hx : lookupM s.activeStreams streamId <;> simp [hx]

/-- Teardown filters the active-route set of the router. -/
theorem hd_routes (s : SystemState) (streamId : String) :
    (s.handleDisconnection streamId).activeRoutes =
      s.activeRoutes.filter (· ≠ streamId) := by
  unfold SystemState.handleDisconnection SystemState.removeRoute
    SystemState.removeStreamFromQueue
  cases hx : lookupM s.activeStreams streamId <;> simp [hx]

/-- Teardown erases the metrics entry (twice). -/
theorem hd_metrics (s : SystemState) (streamId : String) :
    (s.handleDisconnection streamId).processingMetrics =
      eraseM (eraseM s.processingMetrics streamId) streamId := by
  unfold SystemState.handleDisconnection SystemState.removeRoute
    SystemState.removeStreamFromQueue
  cases hx : lookupM s.activeStreams streamId <;> simp [hx]

/-- Teardown preserves the concurrency ceiling value. -/
theorem hd_max (s : SystemState) (streamId : String) :
    (s.handleDisconnection streamId).maxConcurrentStreams =
      s.maxConcurrentStreams := by
  unfold SystemState.handleDisconnection SystemState.removeRoute
    SystemState.removeStreamFromQueue
  cases hx : lookupM s.activeStreams streamId <;> simp [hx]

/-- After teardown the stream has no active-stream record. -/
theorem hd_streams_lookup (s : SystemState) (streamId : String) :
    lookupM (s.handleDisconnection streamId).activeStreams streamId = none := by
  unfold SystemState.handleDisconnection SystemState.removeRoute
    SystemState.removeStreamFromQueue
  cases hx : lookupM s.activeStreams streamId with
  | none => simp [hx]
  | some st => simp [hx, lookupM_eraseM]

/-- After teardown the stream has no buffer entry. -/
theorem hd_buffer_lookup (s : SystemState) (streamId : String) :
    lookupM (s.handleDisconnection streamId).buffer.buffers streamId = none := by
  unfold SystemState.handleDisconnection SystemState.removeRoute
    SystemState.removeStreamFromQueue
  cases hx : lookupM s.activeStreams streamId <;>
    simp only [hx] <;>
    cases hb : lookupM s.buffer.buffers streamId <;>
      simp [StreamBuffer.removeStream, hb, lookupM_eraseM]

/-- Effect of teardown on the user-session map: the entry of the recorded
owner is erased when the stream is known, otherwise the map is untouched. -/
theorem hd_sessions (s : SystemState) (streamId : String) :
    (s.handleDisconnection streamId).userSessions =
      (match lookupM s.activeStreams streamId with
       | some st => eraseM s.userSessions st.userId
       | none => s.userSessions) := by
  unfold SystemState.handleDisconnection SystemState.removeRoute
    SystemState.removeStreamFromQueue
  cases hx : lookupM s.activeStreams streamId <;> simp [hx]

/-- Every scheduler step keeps the active set within the concurrency
ceiling. -/
theorem sysStep_ceiling {s t : SystemState} (hstep : SysStep s t)
    (h : s.activeProcessing.length ≤ s.maxConcurrentStreams) :
    t.activeProcessing.length ≤ t.maxConcurrentStreams := by
  cases hstep with
  | push streamId f =>
    rw [pushFrame_active, pushFrame_max]
    exact h
  | admitStream streamId p =>
    rw [routeToAI_active, routeToAI_max]
    exact h
  | activate =>
    unfold SystemState.processNextBatch
    split
    · exact h
    · rename_i hcond
      split
      · exact h
      · rename_i job _
        have hlt : s.activeProcessing.length < s.maxConcurrentStreams := by
          rcases not_or.mp hcond with ⟨_, h2⟩
          omega
        calc (insertS s.activeProcessing job.streamId).length
            ≤ s.activeProcessing.length + 1 := insertS_length ..
          _ ≤ s.maxConcurrentStreams := hlt
  | drain streamId => exact h
  | finishOk streamId =>
    calc (s.activeProcessing.filter (· ≠ streamId)).length
        ≤ s.activeProcessing.length := List.length_filter_le ..
      _ ≤ s.maxConcurrentStreams := h
  | finishErr streamId =>
    show ((s.handleProcessingErrorFn streamId).1.activeProcessing.filter
        (· ≠ streamId)).length ≤
      (s.handleProcessingErrorFn streamId).1.maxConcurrentStreams
    rw [handleProcessingError_active, handleProcessingError_max]
    calc (s.activeProcessing.filter (· ≠ streamId)).length
        ≤ s.activeProcessing.length := List.length_filter_le ..
      _ ≤ s.maxConcurrentStreams := h
  | fire streamId job rest hpr => exact h
  | disconnect streamId =>
    rw [hd_active, hd_max]
    calc ((s.activeProcessing.filter (· ≠ streamId)).filter
            (· ≠ streamId)).length
        ≤ (s.activeProcessing.filter (· ≠ streamId)).length :=
          List.length_filter_le ..
      _ ≤ s.activeProcessing.length := List.length_filter_le ..
      _ ≤ s.maxConcurrentStreams := h

/-- C6: under any admission pattern and any sequence of coordinator steps the
active-processing set never exceeds `maxConcurrentStreams` (5 in the initial
state), and at the ceiling `processNextBatch` returns without activating
another stream. -/
theorem c6_concurrency_ceiling :
    (∀ s : SystemState, Relation.ReflTransGen SysStep initState s →
      s.activeProcessing.length ≤ s.maxConcurrentStreams) ∧
    (∀ s : SystemState,
      s.maxConcurrentStreams ≤ s.activeProcessing.length →
      s.processNextBatch = s) := by
  constructor
  · intro s h
    induction h with
    | refl => simp [initState]
    | tail hchain hstep ih => exact sysStep_ceiling hstep ih
  · intro s h
    unfold SystemState.processNextBatch
    rw [if_pos (Or.inr h)]

/-- C6 witness: the ceiling holds at the freshly constructed service, and a
state with five active streams activates nothing further. -/
theorem c6_concurrency_ceiling_witness :
    initState.activeProcessing.length ≤ initState.maxConcurrentStreams ∧
    c6FullState.processNextBatch = c6FullState :=
  ⟨c6_concurrency_ceiling.1 initState Relation.ReflTransGen.refl,
   c6_concurrency_ceiling.2 c6FullState (by decide)⟩

/-- Queueing a stream that is not active preserves queue/active
disjointness. -/
theorem addStreamToQueue_disjoint (s : SystemState) (streamId : String)
    (p : Int) (hna : s.activeProcessing.contains streamId = false)
    (h : QueueActiveDisjoint s) :
    QueueActiveDisjoint (s.addStreamToQueue streamId p) := by
  intro k hk
  rw [addStreamToQueue_active] at hk
  by_cases hks : k = streamId
  · subst hks
    rw [hk] at hna
    cases hna
  · rw [addStreamToQueue_queue_ne s streamId p k hks]
    exact h k hk

/-- The buffer-signal handlers preserve queue/active disjointness: the
`frame:added` handler queues only non-active streams, and the overflow
handler only rewrites a job that already exists (whose stream therefore is
not active). -/
theorem applyBufEvent_disjoint (s : SystemState) (e : BufEvent)
    (h : QueueActiveDisjoint s) : QueueActiveDisjoint (s.applyBufEvent e) := by
  unfold SystemState.applyBufEvent
  cases e <;> try exact h
  case frameAdded sid size =>
    dsimp only
    split
    · rename_i hcond
      rw [Bool.and_eq_true] at hcond
      obtain ⟨h1, h2⟩ := hcond
      have hna : s.activeProcessing.contains sid = false := by
        cases hcc : s.activeProcessing.contains sid
        · rfl
        · rw [hcc] at h2; simp at h2
      exact addStreamToQueue_disjoint s sid 1 hna h
    · exact h
  case overflow sid removed size =>
    dsimp only
    cases hx : lookupM s.procQueue sid with
    | none =>
      simp only [hx]
      exact h
    | some job =>
      simp only [hx]
      intro k hk
      have hk2 : s.activeProcessing.contains k = true := hk
      by_cases hks : k = sid
      · subst hks
        exact absurd (h k hk2) (by simp [hx])
      · show lookupM (insertM s.procQueue sid
            { job with priority := min (job.priority + 1) 10 }) k = none
        rw [lookupM_insertM_ne _ _ _ _ hks]
        exact h k hk2

/-- Admitting a non-active stream preserves queue/active disjointness. -/
theorem routeToAI_disjoint (s : SystemState) (streamId : String) (p : Int)
    (hna : s.activeProcessing.contains streamId = false)
    (h : QueueActiveDisjoint s) :
    QueueActiveDisjoint (s.routeToAI streamId p) := by
  unfold SystemState.routeToAI
  exact addStreamToQueue_disjoint
    { s with routerQueue := insertM s.routerQueue streamId p,
             activeRoutes := insertS s.activeRoutes streamId }
    streamId p hna h

/-- Every restricted scheduler step preserves queue/active disjointness. -/
theorem sysStepR_disjoint {s t : SystemState} (hstep : SysStepR s t)
    (h : QueueActiveDisjoint s) : QueueActiveDisjoint t := by
  cases hstep with
  | push streamId f =>
    unfold SystemState.pushFrame
    exact foldl_preserves QueueActiveDisjoint SystemState.applyBufEvent
      (fun a b ha => applyBufEvent_disjoint a b ha)
      (s.buffer.addFrame streamId f).2.2
      { s with buffer := (s.buffer.addFrame streamId f).1 } h
  | admitStream streamId p hna => exact routeToAI_disjoint s streamId p hna h
  | activate =>
    unfold SystemState.processNextBatch
    split
    · exact h
    · split
      · exact h
      · rename_i job hjob
        intro k hk
        have hk2 : (insertS s.activeProcessing job.streamId).contains k =
            true := hk
        show lookupM (eraseM s.procQueue job.streamId) k = none
        rw [lookupM_eraseM]
        by_cases hks : k = job.streamId
        · rw [if_pos hks]
        · rw [if_neg hks]
          rcases insertS_contains _ _ _ hk2 with hc | hc
          · exact h k hc
          · exact absurd hc hks
  | drain streamId => exact h
  | finishOk streamId =>
    intro k hk
    have hk2 : (s.activeProcessing.filter (· ≠ streamId)).contains k =
        true := hk
    exact h k (contains_filter_ne _ _ _ hk2).1
  | finishErr streamId =>
    intro k hk
    have hk2 : ((s.handleProcessingErrorFn streamId).1.activeProcessing.filter
        (· ≠ streamId)).contains k = true := hk
    have hk3 := contains_filter_ne _ _ _ hk2
    have hk4 : s.activeProcessing.contains k = true := by
      rw [handleProcessingError_active] at hk3
      exact hk3.1
    show lookupM (s.handleProcessingErrorFn streamId).1.procQueue k = none
    rw [handleProcessingError_queue_ne s streamId k hk3.2]
    exact h k hk4
  | fire streamId job rest hpr hna =>
    intro k hk
    have hk2 : s.activeProcessing.contains k = true := hk
    by_cases hks : k = streamId
    · subst hks
      rw [hk2] at hna
      cases hna
    · show lookupM (insertM s.procQueue streamId job) k = none
      rw [lookupM_insertM_ne _ _ _ _ hks]
      exact h k hk2
  | disconnect streamId =>
    intro k hk
    have hk2 : ((s.activeProcessing.filter (· ≠ streamId)).filter
        (· ≠ streamId)).contains k = true := by
      rw [← hd_active]
      exact hk
    have hk3 := contains_filter_ne _ _ _ (contains_filter_ne _ _ _ hk2).1
    show lookupM (s.handleDisconnection streamId).procQueue k = none
    rw [hd_queue, lookupM_eraseM]
    by_cases hks : k = streamId
    · rw [if_pos hks]
    · rw [if_neg hks, lookupM_eraseM, if_neg hks]
      exact h k hk3.1

/-- C3 (amended): under every sequence of frame pushes, admissions,
activations, drain iterations, pass completions and failures, retry firings
and disconnections in which no stream is admitted (or re-inserted by a retry
timer) while it is active, a stream is never simultaneously in the
active-processing set and in the job queue. -/
theorem c3_single_active_pass :
    ∀ s : SystemState, Relation.ReflTransGen SysStepR initState s →
      QueueActiveDisjoint s := by
  intro s h
  induction h with
  | refl => intro k hk; simp [initState] at hk
  | tail hchain hstep ih => exact sysStepR_disjoint hstep ih

/-- C3 witness: after pushing a frame to w3 (which queues it) and activating
it, its job entry is gone from the queue. -/
theorem c3_single_active_pass_witness :
    lookupM ((initState.pushFrame "w3" (mkFrame 0)).processNextBatch).procQueue
      "w3" = none :=
  c3_single_active_pass _
    (Relation.ReflTransGen.tail
      (Relation.ReflTransGen.tail Relation.ReflTransGen.refl
        (SysStepR.push initState "w3" (mkFrame 0)))
      (SysStepR.activate _))
    "w3" (by decide)

/-- C3 counterexample: push a frame to stream s (auto-queued), activate it,
then re-route it while its pass is in flight — the stream is now in the job
queue and in the active-processing set at the same time, because
the handler of `routeToAI` calls `addStreamToQueue` without consulting the active
set. -/
theorem c3_counterexample :
    (lookupM c3State.procQueue "s").isSome = true ∧
    c3State.activeProcessing.contains "s" = true :=
  ⟨by decide, by decide⟩

/-- C4 counterexample: admitting s2 with priority 5 and re-admitting with
priority 1 leaves the router admission entry at priority 1 — `Map.set`
overwrites it — not at max(5, 1) = 5 as the claim asserts. -/
theorem c4_counterexample :
    lookupM c4State.routerQueue "s2" = some 1 ∧ ¬ ((1 : Int) = max 5 1) :=
  ⟨by decide, by decide⟩

/-- C4 (amended): from a fresh service, admitting a stream with p1 and then
p2 leaves exactly one job entry in the coordinator queue, whose priority is
max(p1, p2) with retryCount 0, and exactly one admission entry in the router
whose priority is the latest value p2 — the router overwrites rather than
maxes, so its priority can be lowered by re-admission. -/
theorem c4_readmission_updates_priority (streamId : String) (p1 p2 : Int) :
    ((initState.routeToAI streamId p1).routeToAI streamId p2).procQueue =
      [(streamId,
        { streamId := streamId, priority := max p1 p2, queuedAt := 0,
          frameCount := 0, retryCount := 0 })] ∧
    ((initState.routeToAI streamId p1).routeToAI streamId p2).routerQueue =
      [(streamId, p2)] := by
  constructor <;>
    simp [SystemState.routeToAI, SystemState.addStreamToQueue, initState,
      insertM, insertS, lookupM, StreamBuffer.getBufferSize, bufferContents,
      StreamBuffer.create]

/-- C2 (code behaviour at the failing input): after three frames are pushed
to s1 and the stream is activated, its job entry has been deleted from the
queue; an always-failing enhancement is swallowed batch-by-batch inside the
pass, which ends with `processing:completed` carrying one error and schedules
no retry; and even an unhandled pass failure finds no job in the queue, so
`handleProcessingError` emits a terminal `processing:failed` with 0 retries
instead of scheduling the first of three backoff retries. -/
theorem c2_retry_never_fires :
    lookupM c2State.procQueue "s1" = none ∧
    c2State.activeProcessing = ["s1"] ∧
    c2State.handleProcessingErrorFn "s1" =
      (c2State, [ProcEvent.processingFailed "s1" 0]) ∧
    (c2State.processStream "s1" failingEnhance 10).2 =
      [ProcEvent.processingStarted "s1", ProcEvent.batchError "s1" 3,
       ProcEvent.processingCompleted "s1" 0 1] ∧
    (c2State.processStream "s1" failingEnhance 10).1.pendingRetries = [] :=
  ⟨by decide, by decide, by decide, by decide, by decide⟩

/-- `handleDisconnection` fixes any state already torn down for the stream:
no active-stream record, no buffer entry, and erase/filter-stable queues and
sets. -/
theorem handleDisconnection_fixed (u : SystemState) (streamId : String)
    (h1 : lookupM u.activeStreams streamId = none)
    (h2 : lookupM u.buffer.buffers streamId = none)
    (h3 : eraseM u.routerQueue streamId = u.routerQueue)
    (h4 : u.activeRoutes.filter (· ≠ streamId) = u.activeRoutes)
    (h5 : eraseM u.procQueue streamId = u.procQueue)
    (h6 : u.activeProcessing.filter (· ≠ streamId) = u.activeProcessing)
    (h7 : eraseM u.processingMetrics streamId = u.processingMetrics) :
    u.handleDisconnection streamId = u := by
  unfold SystemState.handleDisconnection SystemState.removeRoute
    SystemState.removeStreamFromQueue StreamBuffer.removeStream
  simp only [h1, h2, h3, h4, h5, h6, h7]

/-- C7: `handleDisconnection` is idempotent — a second call leaves the state
of the first call untouched and raises no error — and after one call the
stream has an empty buffer, no job entry, no router admission, no
active-stream record and (given the session-map consistency the façade
maintains) no user-session mapping. -/
theorem c7_idempotent_teardown (s : SystemState) (streamId : String) :
    (s.handleDisconnection streamId).handleDisconnection streamId =
      s.handleDisconnection streamId ∧
    (s.handleDisconnection streamId).buffer.getBufferSize streamId = 0 ∧
    lookupM (s.handleDisconnection streamId).procQueue streamId = none ∧
    lookupM (s.handleDisconnection streamId).routerQueue streamId = none ∧
    (s.handleDisconnection streamId).activeRoutes.contains streamId = false ∧
    (s.handleDisconnection streamId).activeProcessing.contains streamId
      = false ∧
    lookupM (s.handleDisconnection streamId).activeStreams streamId = none ∧
    (SessionConsistent s streamId →
      ∀ u : String, lookupM (s.handleDisconnection streamId).userSessions u ≠
        some streamId) := by
  refine ⟨?_, ?_, ?_, ?_, ?_, ?_, ?_, ?_⟩
  · apply handleDisconnection_fixed
    · exact hd_streams_lookup s streamId
    · exact hd_buffer_lookup s streamId
    · rw [hd_router]; exact eraseM_idem ..
    · rw [hd_routes]; exact filter_ne_idem ..
    · rw [hd_queue]; exact eraseM_idem ..
    · rw [hd_active]; exact filter_ne_idem ..
    · rw [hd_metrics]; exact eraseM_idem ..
  · simp [StreamBuffer.getBufferSize, bufferContents, hd_buffer_lookup]
  · rw [hd_queue, lookupM_eraseM]; simp
  · rw [hd_router, lookupM_eraseM]; simp
  · rw [hd_routes]; exact contains_filter_self ..
  · rw [hd_active]; exact contains_filter_self ..
  · exact hd_streams_lookup s streamId
  · intro hcons u hu
    rw [hd_sessions] at hu
    cases hx : lookupM s.activeStreams streamId with
    | some st =>
      simp only [hx] at hu
      by_cases hus : u = st.userId
      · rw [hus, lookupM_eraseM] at hu
        simp at hu
      · rw [lookupM_eraseM, if_neg hus] at hu
        obtain ⟨st2, hst2, huid⟩ := hcons u hu
        rw [hx] at hst2
        injection hst2 with he
        exact hus (he ▸ huid).symm
    | none =>
      simp only [hx] at hu
      obtain ⟨st2, hst2, _⟩ := hcons u hu
      rw [hx] at hst2
      cases hst2

/-- C7 witness: tearing down the registered stream s7 twice equals tearing it
down once, and the single teardown leaves no buffer frames, job entry or
session mapping. -/
theorem c7_idempotent_teardown_witness :
    (c7State.handleDisconnection "s7").handleDisconnection "s7" =
      c7State.handleDisconnection "s7" ∧
    (c7State.handleDisconnection "s7").buffer.getBufferSize "s7" = 0 ∧
    lookupM (c7State.handleDisconnection "s7").procQueue "s7" = none ∧
    (∀ u : String, lookupM (c7State.handleDisconnection "s7").userSessions u ≠
      some "s7") := by
  obtain ⟨ha, hb, hc, _, _, _, _, hs⟩ := c7_idempotent_teardown c7State "s7"
  refine ⟨ha, hb, hc, hs ?_⟩
  intro u hu
  have husessions : c7State.userSessions = [("u7", "s7")] := rfl
  rw [husessions] at hu
  by_cases h : "u7" = u
  · subst h
    exact ⟨{ streamId := "s7", userId := "u7", config := none, frames := [] },
      by decide, rfl⟩
  · exfalso
    simp [lookupM, h] at hu
